import Mathlib

/-!
Verification of the LeLang repository against its specification.

Shallow embedding conventions:
* Go byte buffers are `List Nat`, each entry a byte value (< 256 by construction).
* Go `int16` values are `Int` together with the range fact `-32768 ≤ s < 32768`;
  two's-complement truncation is written explicitly with `% 65536` (`% 2^16`)
  and `% 4294967296` (`% 2^32`) where the source converts to `int16`/`int32`.
* Go maps that the code iterates are association lists `List (key × value)`
  whose list order stands for one concrete map-iteration order (Go's iteration
  order is arbitrary; a theorem quantifying over the list covers every
  possible order); a map that is only read pointwise is `key → Option value`.
* Fallible or effectful operations take their environment outcomes (file
  contents, HTTP results, context cancellation) as explicit parameters and
  return `Option`/sum-like results; `none` for a list index models the Go
  runtime panic for an out-of-range slice index.
-/

/-! ## WAV encoder (src/recorder.go, `samplesToWAV`) -/

/-- Go constant `wavHeaderSize` (src/main.go). -/
def wavHeaderSize : Nat := 44

/-- Two little-endian bytes of a value already reduced mod 2^16
(what `binary.Write(..., LittleEndian, int16(x))` emits). -/
def le16 (n : Nat) : List Nat := [n % 256, n / 256 % 256]

/-- Four little-endian bytes of a value already reduced mod 2^32
(what `binary.Write(..., LittleEndian, int32(x))` emits). -/
def le32 (n : Nat) : List Nat :=
  [n % 256, n / 256 % 256, n / 65536 % 256, n / 16777216 % 256]

/-- Two's-complement 16-bit pattern of a Go `int16` value. -/
def toBits16 (s : Int) : Nat := (s % 65536).toNat

/-- The sample payload: each `int16` written little-endian, in order
(the `for _, sample := range samples` loop of `samplesToWAV`). -/
def samplesBytes : List Int → List Nat
  | [] => []
  | s :: rest => le16 (toBits16 s) ++ samplesBytes rest

/-- src/recorder.go `samplesToWAV`: RIFF header, fmt subchunk, data subchunk,
then the raw little-endian samples.  `sampleRate`/`channels` are Go `int`s
(nonnegative here), truncated exactly where the source converts them. -/
def samplesToWAV (samples : List Int) (sampleRate channels : Nat) : List Nat :=
  let dataSize := samples.length * 2
  let fileSize := wavHeaderSize + dataSize - 8
  [0x52, 0x49, 0x46, 0x46]
  ++ le32 (fileSize % 4294967296)
  ++ [0x57, 0x41, 0x56, 0x45]
  ++ [0x66, 0x6D, 0x74, 0x20]
  ++ le32 16
  ++ le16 1
  ++ le16 (channels % 65536)
  ++ le32 (sampleRate % 4294967296)
  ++ le32 (sampleRate * channels * 2 % 4294967296)
  ++ le16 (channels * 2 % 65536)
  ++ le16 16
  ++ [0x64, 0x61, 0x74, 0x61]
  ++ le32 (dataSize % 4294967296)
  ++ samplesBytes samples

/-- Numeric value of a 4-byte little-endian field (spec-side reader). -/
def leVal32 : List Nat → Nat
  | a :: b :: c :: d :: _ => a + 256 * b + 65536 * c + 16777216 * d
  | _ => 0

/-- Interpret a 16-bit pattern as a signed 16-bit value (spec-side reader). -/
def fromBits16 (u : Nat) : Int := if u < 32768 then (u : Int) else (u : Int) - 65536

/-- Parse consecutive little-endian byte pairs back into signed 16-bit samples
(spec-side reader for the data payload after the 44-byte header). -/
def bytesToSamples : List Nat → List Int
  | b0 :: b1 :: rest => fromBits16 (b0 + 256 * b1) :: bytesToSamples rest
  | _ => []

theorem samplesBytes_length (samples : List Int) :
    (samplesBytes samples).length = 2 * samples.length := by
  induction samples with
  | nil => rfl
  | cons s rest ih => simp [samplesBytes, le16, ih]; omega

theorem leVal32_le32 (x : Nat) : leVal32 (le32 x) = x % 4294967296 := by
  simp only [le32, leVal32]
  omega

theorem fromBits16_toBits16 (s : Int) (h0 : -32768 ≤ s) (h1 : s < 32768) :
    fromBits16 (toBits16 s % 256 + 256 * (toBits16 s / 256 % 256)) = s := by
  simp only [toBits16, fromBits16]
  split <;> omega

theorem bytesToSamples_samplesBytes (samples : List Int)
    (h : ∀ s ∈ samples, -32768 ≤ s ∧ s < 32768) :
    bytesToSamples (samplesBytes samples) = samples := by
  induction samples with
  | nil => rfl
  | cons s rest ih =>
    have hs := h s (List.mem_cons_self s rest)
    have hrest : ∀ x ∈ rest, -32768 ≤ x ∧ x < 32768 :=
      fun x hx => h x (List.mem_cons_of_mem s hx)
    simp only [samplesBytes, le16, List.cons_append, List.nil_append, List.append_eq,
      bytesToSamples]
    rw [ih hrest, fromBits16_toBits16 s hs.1 hs.2]

set_option maxHeartbeats 1600000 in
/-- C3: for every sequence of signed 16-bit samples (including the empty
sequence), sample rate and channel count, `samplesToWAV` produces a buffer of
exactly `44 + 2*sampleCount` bytes; its RIFF size field (bytes 4..7, little
endian) equals `36 + dataSize` (exactly whenever that value fits in 32 bits,
and reduced mod 2^32 in general, as forced by the `int32` conversion); its
`data` subchunk size field (bytes 40..43) equals `sampleCount*2` (same
proviso); parsing the payload after the 44-byte header reconstructs the
original samples exactly; and for the empty sequence the result is a valid
44-byte file carrying the `RIFF`/`WAVE`/`data` tags. -/
theorem samplesToWAV_wav_spec (samples : List Int) (sampleRate channels : Nat)
    (h : ∀ s ∈ samples, -32768 ≤ s ∧ s < 32768) :
    (samplesToWAV samples sampleRate channels).length = 44 + 2 * samples.length
    ∧ leVal32 (((samplesToWAV samples sampleRate channels).drop 4).take 4)
        = (36 + 2 * samples.length) % 4294967296
    ∧ (36 + 2 * samples.length < 4294967296 →
        leVal32 (((samplesToWAV samples sampleRate channels).drop 4).take 4)
          = 36 + 2 * samples.length)
    ∧ leVal32 (((samplesToWAV samples sampleRate channels).drop 40).take 4)
        = 2 * samples.length % 4294967296
    ∧ (2 * samples.length < 4294967296 →
        leVal32 (((samplesToWAV samples sampleRate channels).drop 40).take 4)
          = 2 * samples.length)
    ∧ bytesToSamples ((samplesToWAV samples sampleRate channels).drop 44) = samples
    ∧ (samples = [] → (samplesToWAV samples sampleRate channels).length = 44)
    ∧ (samplesToWAV samples sampleRate channels).take 4 = [0x52, 0x49, 0x46, 0x46]
    ∧ ((samplesToWAV samples sampleRate channels).drop 8).take 4 = [0x57, 0x41, 0x56, 0x45]
    ∧ ((samplesToWAV samples sampleRate channels).drop 36).take 4 = [0x64, 0x61, 0x74, 0x61] := by
  have hlen : (samplesToWAV samples sampleRate channels).length
      = 44 + (samplesBytes samples).length := by
    simp [samplesToWAV, le32, le16, List.length_append]
    omega
  have hriff : ((samplesToWAV samples sampleRate channels).drop 4).take 4
      = le32 ((44 + samples.length * 2 - 8) % 4294967296) := rfl
  have hdata : ((samplesToWAV samples sampleRate channels).drop 40).take 4
      = le32 (samples.length * 2 % 4294967296) := rfl
  refine ⟨?_, ?_, ?_, ?_, ?_, ?_, ?_, rfl, rfl, rfl⟩
  · rw [hlen, samplesBytes_length]
  · rw [hriff, leVal32_le32]; omega
  · intro hsmall; rw [hriff, leVal32_le32]; omega
  · rw [hdata, leVal32_le32]; omega
  · intro hsmall; rw [hdata, leVal32_le32]; omega
  · exact bytesToSamples_samplesBytes samples h
  · intro he; subst he; rfl

/-- Witness for C3 at the concrete input `[5, -3]`, rate 16000, 1 channel. -/
theorem samplesToWAV_wav_spec_witness :
    (samplesToWAV [5, -3] 16000 1).length = 44 + 2 * 2
    ∧ bytesToSamples ((samplesToWAV [5, -3] 16000 1).drop 44) = [5, -3]
    ∧ leVal32 (((samplesToWAV [5, -3] 16000 1).drop 4).take 4) = (36 + 2 * 2) % 4294967296 := by
  have h := samplesToWAV_wav_spec [5, -3] 16000 1 (by decide)
  exact ⟨by simpa using h.1, by simpa using h.2.2.2.2.2.1, by simpa using h.2.1⟩

/-! ## Word store (src/unnamed/part_002, `WordsStore`)

The Go `map[string]string` is modelled as `String → Option String`
(`none` = key absent); the store never iterates the map, only `order`. -/

structure WordsStore where
  words : String → Option String
  order : List String

def NewWordsStore : WordsStore := { words := fun _ => none, order := [] }

/-- `WordsStore.Add`: append the word to `order` only when it is new, then
(over)write its translation in `words`. -/
def WordsStore.Add (ws : WordsStore) (word meaning : String) : WordsStore :=
  { words := fun w => if w = word then some meaning else ws.words w
  , order := if (ws.words word).isSome then ws.order else ws.order ++ [word] }

/-- `WordsStore.List`: one "word: translation" line per entry of `order`
(a map read of a present key; `.getD ""` is Go's zero value for safety). -/
def WordsStore.List (ws : WordsStore) : String :=
  String.join (ws.order.map (fun word => word ++ ": " ++ (ws.words word).getD "" ++ "\n"))

/-- A whole session: fold a sequence of Add calls over the fresh store. -/
def addAll (pairs : List (String × String)) : WordsStore :=
  pairs.foldl (fun ws p => ws.Add p.1 p.2) NewWordsStore

/-- Spec-side: the distinct words in first-addition order. -/
def firstOccurs (l : List String) : List String :=
  l.foldl (fun acc w => if w ∈ acc then acc else acc ++ [w]) []

/-- Spec-side: the last translation written for `w` (`""` if never written). -/
def lastMeaning (pairs : List (String × String)) (w : String) : String :=
  pairs.foldl (fun acc p => if p.1 = w then p.2 else acc) ""

theorem firstOccurs_append_single (l : List String) (w : String) :
    firstOccurs (l ++ [w])
      = if w ∈ firstOccurs l then firstOccurs l else firstOccurs l ++ [w] := by
  simp [firstOccurs, List.foldl_append]

theorem firstOccurs_mem (l : List String) (w : String) :
    w ∈ firstOccurs l ↔ w ∈ l := by
  induction l using List.reverseRecOn with
  | nil => simp [firstOccurs]
  | append_singleton l x ih =>
    rw [firstOccurs_append_single]
    by_cases hx : x ∈ firstOccurs l
    · rw [if_pos hx]
      simp only [List.mem_append, List.mem_singleton, ih]
      constructor
      · exact Or.inl
      · rintro (h | h)
        · exact h
        · subst h; exact ih.mp hx
    · rw [if_neg hx]
      simp [List.mem_append, ih]

theorem addAll_invariant (pairs : List (String × String)) :
    (addAll pairs).order = firstOccurs (pairs.map Prod.fst)
    ∧ (∀ w, ((addAll pairs).words w).isSome = true ↔ w ∈ pairs.map Prod.fst)
    ∧ (∀ w, ((addAll pairs).words w).getD "" = lastMeaning pairs w) := by
  induction pairs using List.reverseRecOn with
  | nil =>
    refine ⟨rfl, fun w => ?_, fun w => rfl⟩
    simp [addAll, NewWordsStore]
  | append_singleton ps p ih =>
    obtain ⟨ho, hm, hg⟩ := ih
    have hstep : addAll (ps ++ [p]) = (addAll ps).Add p.1 p.2 := by
      simp [addAll, List.foldl_append]
    refine ⟨?_, ?_, ?_⟩
    · rw [hstep]
      show (if ((addAll ps).words p.1).isSome then (addAll ps).order
            else (addAll ps).order ++ [p.1]) = _
      simp only [List.map_append, List.map_cons, List.map_nil]
      rw [firstOccurs_append_single, ho]
      by_cases hp : p.1 ∈ List.map Prod.fst ps
      · rw [if_pos ((hm p.1).mpr hp), if_pos ((firstOccurs_mem _ _).mpr hp)]
      · rw [if_neg (fun h => hp ((hm p.1).mp h)),
          if_neg (fun h => hp ((firstOccurs_mem _ _).mp h))]
    · intro w
      rw [hstep]
      show ((if w = p.1 then some p.2 else (addAll ps).words w).isSome = true) ↔ _
      simp only [List.map_append, List.map_cons, List.map_nil, List.mem_append,
        List.mem_singleton]
      by_cases hw : w = p.1
      · simp [hw]
      · simp [hw, hm w]
    · intro w
      rw [hstep]
      show (if w = p.1 then some p.2 else (addAll ps).words w).getD "" = _
      have hl : lastMeaning (ps ++ [p]) w
          = if p.1 = w then p.2 else lastMeaning ps w := by
        simp [lastMeaning, List.foldl_append]
      rw [hl]
      by_cases hw : w = p.1
      · simp [hw]
      · have hw2 : ¬ p.1 = w := fun h => hw h.symm
        simp [hw, hw2, hg w]

/-- C9: for every sequence of `Add(word, translation)` calls on the fresh
word store, `List` renders exactly one "word: translation" line per distinct
word ever added, in first-addition order, each word mapped to the last
translation written for it; in particular adding Hallo/Welt/Hallo with
hi/world/hey lists exactly the two lines "Hallo: hey" then "Welt: world". -/
theorem wordsStore_List_spec (pairs : List (String × String)) :
    (addAll pairs).List
      = String.join ((firstOccurs (pairs.map Prod.fst)).map
          (fun w => w ++ ": " ++ lastMeaning pairs w ++ "\n"))
    ∧ (addAll [("Hallo", "hi"), ("Welt", "world"), ("Hallo", "hey")]).List
      = "Hallo: hey\nWelt: world\n" := by
  constructor
  · obtain ⟨ho, _, hg⟩ := addAll_invariant pairs
    unfold WordsStore.List
    rw [ho]
    have hf : (fun w => w ++ ": " ++ ((addAll pairs).words w).getD "" ++ "\n")
        = (fun w => w ++ ": " ++ lastMeaning pairs w ++ "\n") :=
      funext fun w => by rw [hg w]
    rw [hf]
  · rfl

/-! ## Voice catalog data (src/unnamed/part_007) -/

/-- Voice catalog entry.  Only the fields the embedded operations read are
carried (`Key` and `Language.Family`); the remaining metadata (name, quality,
files, ...) is never inspected by the code under proof. -/
structure VoiceInfo where
  key : String
  languageFamily : String
deriving Repr, DecidableEq

/-! ## Configuration manager (src/unnamed/part_005, later revision) -/

structure TTSBackend where
  type : String
  voice : String
deriving Repr, DecidableEq

structure STTBackend where
  type : String
  model : String
deriving Repr, DecidableEq

structure Config where
  language : String
  targetTranslationLanguage : String
  libreTranslateURL : String
  ttsBackend : TTSBackend
  sttBackend : STTBackend
deriving Repr, DecidableEq

/-- `NewConfig`: the built-in defaults. -/
def NewConfig : Config :=
  { language := "de"
  , targetTranslationLanguage := "en"
  , libreTranslateURL := "http://localhost:5000"
  , ttsBackend := { type := "piper", voice := "de_DE-karlsson-low.onnx" }
  , sttBackend := { type := "hosted", model := "whisper-large-v3" } }

inductive ConfigError where
  | createError
  | openError
  | parseError
  | invalidApiKey
  | invalidModel
  | transportError
deriving Repr, DecidableEq

/-- `isValid`: classification of the model-validation GET by HTTP status
(`none` = transport failure before any status was received):
200 is success, 401 is the distinguished invalid-API-key error, anything
else is "Invalid model". -/
def isValid (status : Option Nat) : Option ConfigError :=
  match status with
  | none => some ConfigError.transportError
  | some 200 => none
  | some 401 => some ConfigError.invalidApiKey
  | some _ => some ConfigError.invalidModel

/-- `resolvePiperVoice`.  `fetchResult` is the outcome of `piper.FetchVoices()`
(`none` = fetch error), the list being the catalog values in map-iteration
order.  The range loop keeps overwriting `v` on every family match, so the
last matching entry of the iteration wins; an empty `v` afterwards (no match)
falls back to the defaults. -/
def resolvePiperVoice (fetchResult : Option (List VoiceInfo)) (language : String)
    (defaultConfig : Config) : String × String :=
  match fetchResult with
  | none => (defaultConfig.ttsBackend.voice, defaultConfig.language)
  | some voices =>
    let v := voices.foldl
      (fun acc voice => if voice.languageFamily = language then voice.key else acc) ""
    if v = "" then (defaultConfig.ttsBackend.voice, defaultConfig.language)
    else (v ++ ".onnx", language)

/-- Spec-side variant following the claim words "selects the first catalog
entry whose language family equals the configured language". -/
def resolvePiperVoiceFirstSpec (fetchResult : Option (List VoiceInfo)) (language : String)
    (defaultConfig : Config) : String × String :=
  match fetchResult with
  | none => (defaultConfig.ttsBackend.voice, defaultConfig.language)
  | some voices =>
    match voices.find? (fun voice => voice.languageFamily = language) with
    | none => (defaultConfig.ttsBackend.voice, defaultConfig.language)
    | some voice => (voice.key ++ ".onnx", language)

/-- `populateDefaults` (the `FetchVoices` outcome is passed through to
`resolvePiperVoice`).  Note: `TargetTranslationLanguage` is never filled. -/
def populateDefaults (fetchResult : Option (List VoiceInfo)) (config : Config) : Config :=
  let defaultConfig := NewConfig
  let config1 := if config.libreTranslateURL = ""
    then { config with libreTranslateURL := defaultConfig.libreTranslateURL }
    else config
  let config2 := if config1.ttsBackend.type = ""
    then { config1 with ttsBackend := { config1.ttsBackend with type := defaultConfig.ttsBackend.type } }
    else config1
  if config2.ttsBackend.type = "piper" ∧ config2.ttsBackend.voice = "" then
    let vl := resolvePiperVoice fetchResult config2.language defaultConfig
    { config2 with ttsBackend := { config2.ttsBackend with voice := vl.1 }, language := vl.2 }
  else config2

/-- Environment outcomes feeding one `GetConfig` run. -/
structure ConfigEnv where
  fileExists : Bool
  openOk : Bool
  createOk : Bool
  parsed : Option Config
  validStatus : Option Nat
  fetchResult : Option (List VoiceInfo)

/-- `GetConfig`: missing file creates and returns defaults; open, parse and
validation failures all return the full built-in defaults `NewConfig`
together with the error; on success the parsed config is defaulted. -/
def GetConfig (env : ConfigEnv) : Config × Option ConfigError :=
  if !env.fileExists then
    if env.createOk then (NewConfig, none)
    else (NewConfig, some ConfigError.createError)
  else if !env.openOk then (NewConfig, some ConfigError.openError)
  else match env.parsed with
  | none => (NewConfig, some ConfigError.parseError)
  | some config =>
    match isValid env.validStatus with
    | some e => (NewConfig, some e)
    | none => (populateDefaults env.fetchResult config, none)

/-- C10: whenever configuration loading fails while the file exists
(unreadable file, malformed JSON, or validation failure — invalid API key,
invalid model, or validation transport error), `GetConfig` returns the
complete built-in default configuration `NewConfig` (every field populated
with its default) together with the error. -/
theorem GetConfig_error_defaults (env : ConfigEnv) (e : ConfigError)
    (hex : env.fileExists = true) (herr : (GetConfig env).2 = some e) :
    (GetConfig env).1 = NewConfig
    ∧ (GetConfig env).1.language = "de"
    ∧ (GetConfig env).1.targetTranslationLanguage = "en"
    ∧ (GetConfig env).1.libreTranslateURL = "http://localhost:5000"
    ∧ (GetConfig env).1.ttsBackend = { type := "piper", voice := "de_DE-karlsson-low.onnx" }
    ∧ (GetConfig env).1.sttBackend = { type := "hosted", model := "whisper-large-v3" } := by
  have h1 : (GetConfig env).1 = NewConfig := by
    obtain ⟨fe, oo, co, pr, vs, fr⟩ := env
    simp only at hex
    subst hex
    cases oo
    · simp [GetConfig]
    · cases pr with
      | none => simp [GetConfig]
      | some config =>
        cases hv : isValid vs with
        | none => simp [GetConfig, hv] at herr
        | some e2 => simp [GetConfig, hv]
  exact ⟨h1, by rw [h1]; rfl, by rw [h1]; rfl, by rw [h1]; rfl, by rw [h1]; rfl,
    by rw [h1]; rfl⟩

/-- Witness for C10: a run with an existing file whose contents fail to
parse returns the full defaults. -/
theorem GetConfig_error_defaults_witness :
    (GetConfig ⟨true, true, true, none, some 200, none⟩).1 = NewConfig :=
  (GetConfig_error_defaults ⟨true, true, true, none, some 200, none⟩
    ConfigError.parseError rfl rfl).1

theorem resolveLoop_last (voices : List VoiceInfo) (language : String) (acc : String) :
    voices.foldl
        (fun a voice => if voice.languageFamily = language then voice.key else a) acc
      = (((voices.filter (fun voice => voice.languageFamily = language)).getLast?).map
          VoiceInfo.key).getD acc := by
  induction voices using List.reverseRecOn with
  | nil => rfl
  | append_singleton vs v ih =>
    rw [List.foldl_append, List.filter_append]
    simp only [List.foldl_cons, List.foldl_nil]
    by_cases hv : v.languageFamily = language
    · rw [if_pos hv]
      have : List.filter (fun voice => voice.languageFamily = language) [v] = [v] := by
        simp [hv]
      rw [this, List.getLast?_concat]
      rfl
    · rw [if_neg hv]
      have : List.filter (fun voice => voice.languageFamily = language) [v] = [] := by
        simp [hv]
      rw [this, List.append_nil, ih]

/-- C6 counterexample: with two matching catalog entries in iteration order,
the code resolves the LAST one, not the first one claimed. -/
theorem resolvePiperVoice_first_counterexample :
    resolvePiperVoice (some [⟨"a", "fr"⟩, ⟨"b", "fr"⟩]) "fr" NewConfig = ("b.onnx", "fr")
    ∧ resolvePiperVoiceFirstSpec (some [⟨"a", "fr"⟩, ⟨"b", "fr"⟩]) "fr" NewConfig
        = ("a.onnx", "fr")
    ∧ ("b.onnx" : String) ≠ "a.onnx" :=
  ⟨rfl, rfl, by decide⟩

/-- C6 amended: when the TTS backend is "piper" and the voice is empty,
voice resolution selects the LAST catalog entry in iteration order whose
language family equals the configured language (appending ".onnx"); when the
catalog cannot be fetched, or no entry's family matches, it falls back to the
built-in default voice and default language. -/
theorem resolvePiperVoice_amended (voices : List VoiceInfo) (language : String)
    (defaultConfig : Config) :
    resolvePiperVoice none language defaultConfig
        = (defaultConfig.ttsBackend.voice, defaultConfig.language)
    ∧ (voices.filter (fun voice => voice.languageFamily = language) = [] →
        resolvePiperVoice (some voices) language defaultConfig
          = (defaultConfig.ttsBackend.voice, defaultConfig.language))
    ∧ (∀ v, (voices.filter (fun voice => voice.languageFamily = language)).getLast?
          = some v → v.key ≠ "" →
        resolvePiperVoice (some voices) language defaultConfig
          = (v.key ++ ".onnx", language)) := by
  refine ⟨rfl, ?_, ?_⟩
  · intro hnone
    show (if (voices.foldl
        (fun a voice => if voice.languageFamily = language then voice.key else a) "") = ""
      then (defaultConfig.ttsBackend.voice, defaultConfig.language)
      else _) = _
    rw [resolveLoop_last, hnone]
    rfl
  · intro v hlast hkey
    show (if (voices.foldl
        (fun a voice => if voice.languageFamily = language then voice.key else a) "") = ""
      then (defaultConfig.ttsBackend.voice, defaultConfig.language)
      else ((voices.foldl
        (fun a voice => if voice.languageFamily = language then voice.key else a) "")
          ++ ".onnx", language)) = _
    rw [resolveLoop_last, hlast]
    simp [hkey]

/-- Witness for C6 (amended): concrete two-entry catalog, family "fr". -/
theorem resolvePiperVoice_amended_witness :
    resolvePiperVoice (some [⟨"a", "fr"⟩, ⟨"b", "fr"⟩]) "de" NewConfig
      = (NewConfig.ttsBackend.voice, NewConfig.language) :=
  (resolvePiperVoice_amended [⟨"a", "fr"⟩, ⟨"b", "fr"⟩] "de" NewConfig).2.1 (by decide)

/-- The parse result of a config file containing only `{"language":"fr"}`:
every other field is Go's zero value (the empty string). -/
def frOnlyConfig : Config :=
  { language := "fr"
  , targetTranslationLanguage := ""
  , libreTranslateURL := ""
  , ttsBackend := { type := "", voice := "" }
  , sttBackend := { type := "", model := "" } }

/-- A `GetConfig` run over an existing, readable, valid file parsing to
`frOnlyConfig`, with the given voice-catalog fetch outcome. -/
def frOnlyEnv (fetchResult : Option (List VoiceInfo)) : ConfigEnv :=
  { fileExists := true
  , openOk := true
  , createOk := true
  , parsed := some frOnlyConfig
  , validStatus := some 200
  , fetchResult := fetchResult }

/-- C4 counterexample: loading `{"language":"fr"}` leaves
`target_translation_language` EMPTY — `populateDefaults` never fills it —
while the claim says it equals the built-in default "en". -/
theorem GetConfig_fr_counterexample :
    (GetConfig (frOnlyEnv none)).1.targetTranslationLanguage = ""
    ∧ ("" : String) ≠ "en" :=
  ⟨rfl, by decide⟩

/-- C4 amended: loading a configuration file containing only
`{"language":"fr"}` succeeds and yields a configuration in which
`libre_translate_url` and `tts_backend.type` equal the built-in defaults,
`target_translation_language` remains EMPTY (it is never defaulted), and
`tts_backend.voice`/`language` are resolved by a voice-catalog lookup for
family "fr" (the last matching entry in iteration order), falling back to the
built-in German default voice and language when the catalog is unreachable or
no entry matches. -/
theorem GetConfig_fr_amended (fetchResult : Option (List VoiceInfo)) :
    (GetConfig (frOnlyEnv fetchResult)).2 = none
    ∧ (GetConfig (frOnlyEnv fetchResult)).1.libreTranslateURL = "http://localhost:5000"
    ∧ (GetConfig (frOnlyEnv fetchResult)).1.ttsBackend.type = "piper"
    ∧ (GetConfig (frOnlyEnv fetchResult)).1.targetTranslationLanguage = ""
    ∧ (fetchResult = none →
        (GetConfig (frOnlyEnv fetchResult)).1.ttsBackend.voice = "de_DE-karlsson-low.onnx"
        ∧ (GetConfig (frOnlyEnv fetchResult)).1.language = "de")
    ∧ (∀ voices, fetchResult = some voices →
        voices.filter (fun voice => voice.languageFamily = "fr") = [] →
        (GetConfig (frOnlyEnv fetchResult)).1.ttsBackend.voice = "de_DE-karlsson-low.onnx"
        ∧ (GetConfig (frOnlyEnv fetchResult)).1.language = "de")
    ∧ (∀ voices v, fetchResult = some voices →
        (voices.filter (fun voice => voice.languageFamily = "fr")).getLast? = some v →
        v.key ≠ "" →
        (GetConfig (frOnlyEnv fetchResult)).1.ttsBackend.voice = v.key ++ ".onnx"
        ∧ (GetConfig (frOnlyEnv fetchResult)).1.language = "fr") := by
  have hred : GetConfig (frOnlyEnv fetchResult)
      = (populateDefaults fetchResult frOnlyConfig, none) := rfl
  have hpop : populateDefaults fetchResult frOnlyConfig
      = { language := (resolvePiperVoice fetchResult "fr" NewConfig).2
        , targetTranslationLanguage := ""
        , libreTranslateURL := "http://localhost:5000"
        , ttsBackend :=
            { type := "piper", voice := (resolvePiperVoice fetchResult "fr" NewConfig).1 }
        , sttBackend := { type := "", model := "" } } := rfl
  refine ⟨by rw [hred], by rw [hred, hpop], by rw [hred, hpop], by rw [hred, hpop],
    ?_, ?_, ?_⟩
  · rintro rfl
    exact ⟨by rw [hred, hpop]; rfl, by rw [hred, hpop]; rfl⟩
  · rintro voices rfl hnone
    have hres : resolvePiperVoice (some voices) "fr" NewConfig
        = (NewConfig.ttsBackend.voice, NewConfig.language) := by
      show (if (voices.foldl
          (fun a voice => if voice.languageFamily = "fr" then voice.key else a) "") = ""
        then (NewConfig.ttsBackend.voice, NewConfig.language) else _) = _
      rw [resolveLoop_last, hnone]
      rfl
    rw [hred, hpop]
    constructor
    · show (resolvePiperVoice (some voices) "fr" NewConfig).1 = _
      rw [hres]
      rfl
    · show (resolvePiperVoice (some voices) "fr" NewConfig).2 = _
      rw [hres]
      rfl
  · rintro voices v rfl hlast hkey
    have hres : resolvePiperVoice (some voices) "fr" NewConfig = (v.key ++ ".onnx", "fr") := by
      show (if (voices.foldl
          (fun a voice => if voice.languageFamily = "fr" then voice.key else a) "") = ""
        then (NewConfig.ttsBackend.voice, NewConfig.language)
        else ((voices.foldl
          (fun a voice => if voice.languageFamily = "fr" then voice.key else a) "")
            ++ ".onnx", "fr")) = _
      rw [resolveLoop_last, hlast]
      simp [hkey]
    rw [hred, hpop]
    constructor
    · show (resolvePiperVoice (some voices) "fr" NewConfig).1 = _
      rw [hres]
    · show (resolvePiperVoice (some voices) "fr" NewConfig).2 = _
      rw [hres]

/-- Witness for C4 (amended): catalog with one "fr" entry resolves to its
key plus ".onnx" and keeps language "fr". -/
theorem GetConfig_fr_amended_witness :
    (GetConfig (frOnlyEnv (some [⟨"x", "fr"⟩]))).1.ttsBackend.voice = "x.onnx"
    ∧ (GetConfig (frOnlyEnv (some [⟨"x", "fr"⟩]))).1.language = "fr" :=
  (GetConfig_fr_amended (some [⟨"x", "fr"⟩])).2.2.2.2.2.2 [⟨"x", "fr"⟩] ⟨"x", "fr"⟩
    rfl (by decide) (by decide)

/-! ## Voice download resolution (src/unnamed/part_007, `DownloadVoice`) -/

/-- Go `strings.TrimRight(s, cutset)`: removes ALL trailing characters drawn
from the cutset (a character set, not a suffix). -/
def goTrimRight (s cutset : String) : String :=
  String.mk ((s.data.reverse.dropWhile (fun c => cutset.data.contains c)).reverse)

/-- Spec-side `strings.TrimSuffix` semantics (the ".onnx" suffix removed,
names without the suffix left unchanged), per the claim words. -/
def goTrimSuffix (s sfx : String) : String :=
  if sfx.data.isSuffixOf s.data
  then String.mk (s.data.take (s.data.length - sfx.data.length))
  else s

/-- Go `strings.Contains(s, sub)`. -/
def goContains (s sub : String) : Bool :=
  s.data.tails.any (fun t => sub.data.isPrefixOf t)

/-- Go `strings.HasPrefix(s, pre)`. -/
def goStartsWith (s pre : String) : Bool :=
  pre.data.isPrefixOf s.data

/-- Go map lookup `voices[voiceKey]` on the catalog association list. -/
def lookupVoice (voices : List (String × VoiceInfo)) (k : String) : Option VoiceInfo :=
  match voices with
  | [] => none
  | kv :: rest => if kv.1 = k then some kv.2 else lookupVoice rest k

inductive DlResult where
  | fetchError
  | notFound (key : String)
  | resolved (key : String)
deriving Repr, DecidableEq

/-- The voice-key resolution step of `piper.DownloadVoice` (lines 197-221):
trims the requested name with `strings.TrimRight(voice, ".onnx")`, tries an
exact catalog lookup, then falls back to the first entry in iteration order
whose key contains the original requested name and starts with the requested
language; fails ("voice not found") when neither matches.  The subsequent
per-file download is I/O and outside the resolution the claim is about. -/
def DownloadVoiceResolve (fetchResult : Option (List (String × VoiceInfo)))
    (language voice : String) : DlResult :=
  match fetchResult with
  | none => DlResult.fetchError
  | some voices =>
    let voiceKey := goTrimRight voice ".onnx"
    match lookupVoice voices voiceKey with
    | some _ => DlResult.resolved voiceKey
    | none =>
      match voices.find? (fun kv => goContains kv.1 voice && goStartsWith kv.1 language) with
      | some kv => DlResult.resolved kv.1
      | none => DlResult.notFound voiceKey

/-- Spec-side variant following the claim words: the exact lookup uses the
requested name with its ".onnx" SUFFIX removed (a name without that suffix is
looked up unchanged). -/
def DownloadVoiceResolveSuffixSpec (fetchResult : Option (List (String × VoiceInfo)))
    (language voice : String) : DlResult :=
  match fetchResult with
  | none => DlResult.fetchError
  | some voices =>
    let voiceKey := goTrimSuffix voice ".onnx"
    match lookupVoice voices voiceKey with
    | some _ => DlResult.resolved voiceKey
    | none =>
      match voices.find? (fun kv => goContains kv.1 voice && goStartsWith kv.1 language) with
      | some kv => DlResult.resolved kv.1
      | none => DlResult.notFound voiceKey

/-- C7 counterexample: requesting voice "de-anno" (no ".onnx" suffix) under
language "fr" against a catalog containing exactly the key "de-anno".
`TrimRight` eats the trailing "nno" (characters of the cutset), the exact
lookup therefore misses, the partial fallback rejects the key (it does not
start with "fr"), and resolution fails — while the claim (suffix-trim
reading) finds the exact match. -/
theorem DownloadVoice_trim_counterexample :
    DownloadVoiceResolve (some [("de-anno", ⟨"de-anno", "de"⟩)]) "fr" "de-anno"
      = DlResult.notFound "de-a"
    ∧ DownloadVoiceResolveSuffixSpec (some [("de-anno", ⟨"de-anno", "de"⟩)]) "fr" "de-anno"
      = DlResult.resolved "de-anno"
    ∧ DlResult.notFound "de-a" ≠ DlResult.resolved "de-anno" :=
  ⟨rfl, rfl, by decide⟩

theorem find?_first_of_split {α : Type} (p : α → Bool) (pre : List α) (x : α)
    (post : List α) (hpre : ∀ y ∈ pre, ¬ p y = true) (hx : p x = true) :
    (pre ++ x :: post).find? p = some x := by
  induction pre with
  | nil => simp [List.find?_cons_of_pos, hx]
  | cons a rest ih =>
    have ha : ¬ p a = true := hpre a (List.mem_cons_self a rest)
    rw [List.cons_append, List.find?_cons_of_neg _ ha]
    exact ih fun y hy => hpre y (List.mem_cons_of_mem a hy)

/-- C7 amended: `DownloadVoice` resolves the voice key by exact catalog match
on the requested name after `strings.TrimRight(voice, ".onnx")` — which
removes ALL trailing characters drawn from the set {'.', 'o', 'n', 'x'}, not
merely the ".onnx" suffix —; if that lookup fails it falls back to the first
catalog entry in iteration order whose key contains the (untrimmed) requested
name and starts with the requested language; it fails when neither lookup
matches, and errors when the catalog fetch fails. -/
theorem DownloadVoice_resolve_amended (voices : List (String × VoiceInfo))
    (language voice : String) :
    DownloadVoiceResolve none language voice = DlResult.fetchError
    ∧ (∀ vi, lookupVoice voices (goTrimRight voice ".onnx") = some vi →
        DownloadVoiceResolve (some voices) language voice
          = DlResult.resolved (goTrimRight voice ".onnx"))
    ∧ (lookupVoice voices (goTrimRight voice ".onnx") = none →
        (∀ kv ∈ voices, ¬ (goContains kv.1 voice && goStartsWith kv.1 language) = true) →
        DownloadVoiceResolve (some voices) language voice
          = DlResult.notFound (goTrimRight voice ".onnx"))
    ∧ (lookupVoice voices (goTrimRight voice ".onnx") = none →
        ∀ pre kv post, voices = pre ++ kv :: post →
        (goContains kv.1 voice && goStartsWith kv.1 language) = true →
        (∀ kv2 ∈ pre, ¬ (goContains kv2.1 voice && goStartsWith kv2.1 language) = true) →
        DownloadVoiceResolve (some voices) language voice = DlResult.resolved kv.1) := by
  refine ⟨rfl, ?_, ?_, ?_⟩
  · intro vi hvi
    show (match lookupVoice voices (goTrimRight voice ".onnx") with
      | some _ => DlResult.resolved (goTrimRight voice ".onnx")
      | none =>
        match voices.find? (fun kv : String × VoiceInfo => goContains kv.1 voice && goStartsWith kv.1 language) with
        | some kv => DlResult.resolved kv.1
        | none => DlResult.notFound (goTrimRight voice ".onnx")) = _
    rw [hvi]
  · intro hnone hall
    have hfind : voices.find?
        (fun kv => goContains kv.1 voice && goStartsWith kv.1 language) = none :=
      List.find?_eq_none.mpr fun kv hkv => by simpa using hall kv hkv
    show (match lookupVoice voices (goTrimRight voice ".onnx") with
      | some _ => DlResult.resolved (goTrimRight voice ".onnx")
      | none =>
        match voices.find? (fun kv : String × VoiceInfo => goContains kv.1 voice && goStartsWith kv.1 language) with
        | some kv => DlResult.resolved kv.1
        | none => DlResult.notFound (goTrimRight voice ".onnx")) = _
    rw [hnone, hfind]
  · intro hnone pre kv post hsplit hkv hpre
    have hfind : voices.find?
        (fun kv2 => goContains kv2.1 voice && goStartsWith kv2.1 language) = some kv := by
      rw [hsplit]
      exact find?_first_of_split _ pre kv post
        (fun y hy => by simpa using hpre y hy) hkv
    show (match lookupVoice voices (goTrimRight voice ".onnx") with
      | some _ => DlResult.resolved (goTrimRight voice ".onnx")
      | none =>
        match voices.find? (fun kv : String × VoiceInfo => goContains kv.1 voice && goStartsWith kv.1 language) with
        | some kv => DlResult.resolved kv.1
        | none => DlResult.notFound (goTrimRight voice ".onnx")) = _
    rw [hnone, hfind]

/-- Witness for C7 (amended): requesting "anno" under language "de" misses
the exact lookup (the trimmed key is "a") and resolves through the partial
match to catalog key "de-anno". -/
theorem DownloadVoice_resolve_amended_witness :
    DownloadVoiceResolve (some [("de-anno", ⟨"de-anno", "de"⟩)]) "de" "anno"
      = DlResult.resolved "de-anno" :=
  (DownloadVoice_resolve_amended [("de-anno", ⟨"de-anno", "de"⟩)] "de" "anno").2.2.2
    (by decide) [] ("de-anno", ⟨"de-anno", "de"⟩) [] rfl (by decide)
    (fun kv2 hkv2 => by simp at hkv2)

/-! ## TTS synthesis/playback (src/unnamed/part_007, `PiperVoice.Speak`) and
the UI speak command (src/main.go, `Speak`) -/

structure PiperVoice where
  Language : String
  Model : String
deriving Repr, DecidableEq

/-- `piper.NewPiperVoice` defaults. -/
def NewPiperVoice : PiperVoice := { Language := "de", Model := "de_DE-karlsson-low.onnx" }

/-- The piper package error values: `ErrorModelNotFound` and `StoppedSpeaking`
are the distinguished conditions; `otherError` stands for any remaining Go
error (pipe/audio-context/device/subprocess failures). -/
inductive SpeakError where
  | errorModelNotFound (model language : String)
  | stoppedSpeaking
  | otherError (msg : String)
deriving Repr, DecidableEq

/-- Environment outcomes of one `Speak` call, in source order of its decision
points.  `cancelledBeforePlaybackDone` records which branch of the final
select fires; `ctxCancelled` is whether `piper_ctx.Err() == context.Canceled`
when the subprocess exit status is inspected. -/
structure SpeakEnv where
  modelFileExists : Bool
  pipeError : Option String
  audioCtxError : Option String
  deviceInitError : Option String
  piperStartError : Option String
  cancelledBeforePlaybackDone : Bool
  piperWaitError : Option String
  ctxCancelled : Bool
deriving Repr, DecidableEq

/-- `PiperVoice.Speak` (part_007 lines 316-455); `none` = success (nil
error).  On cancellation — context done before the playback-done signal —
the final select returns nil (lines 439-443): no `StoppedSpeaking` value is
ever produced by this function. -/
def PiperVoice.Speak (pv : PiperVoice) (env : SpeakEnv) : Option SpeakError :=
  if !env.modelFileExists then
    some (SpeakError.errorModelNotFound pv.Model pv.Language)
  else match env.pipeError with
  | some e => some (SpeakError.otherError e)
  | none => match env.audioCtxError with
  | some e => some (SpeakError.otherError e)
  | none => match env.deviceInitError with
  | some e => some (SpeakError.otherError e)
  | none => match env.piperStartError with
  | some e => some (SpeakError.otherError e)
  | none =>
    if env.cancelledBeforePlaybackDone then none
    else match env.piperWaitError with
    | some e => if !env.ctxCancelled then some (SpeakError.otherError e) else none
    | none => none

/-- The bubbletea messages produced by the speak command. -/
inductive TeaMsg where
  | emptyString
  | statusChanged (status : String)
  | downloadModel (model language completion : String)
deriving Repr, DecidableEq

/-- The message produced by the `Speak` command closure (src/main.go lines
431-447): the Go error type switch on the `Speak` outcome. -/
def SpeakCmdMsg (pv : PiperVoice) (env : SpeakEnv) (text : String) : TeaMsg :=
  match pv.Speak env with
  | some SpeakError.stoppedSpeaking => TeaMsg.emptyString
  | some (SpeakError.errorModelNotFound m l) => TeaMsg.downloadModel m l text
  | some (SpeakError.otherError _) => TeaMsg.statusChanged "Failed to speak"
  | none => TeaMsg.statusChanged "Ready"

/-- A run in which everything initializes, playback starts, and the context
is cancelled before playback completes. -/
def cancelledSpeakEnv : SpeakEnv :=
  { modelFileExists := true
  , pipeError := none
  , audioCtxError := none
  , deviceInitError := none
  , piperStartError := none
  , cancelledBeforePlaybackDone := true
  , piperWaitError := none
  , ctxCancelled := true }

/-- C2 counterexample: a cancelled speech invocation makes `Speak` return
success (nil), NOT the distinguished StoppedSpeaking condition, and the UI
speak-outcome handler consequently emits the status-changing message
StatusChanged{"Ready"} — not "no status-changing message" as claimed. -/
theorem Speak_cancel_counterexample :
    NewPiperVoice.Speak cancelledSpeakEnv = none
    ∧ NewPiperVoice.Speak cancelledSpeakEnv ≠ some SpeakError.stoppedSpeaking
    ∧ SpeakCmdMsg NewPiperVoice cancelledSpeakEnv "Hallo" = TeaMsg.statusChanged "Ready"
    ∧ TeaMsg.statusChanged "Ready" ≠ TeaMsg.emptyString :=
  ⟨rfl, by decide, rfl, by decide⟩

/-- C2 amended: for every speech invocation that is cancelled (the context
done before playback completes, after successful initialization),
`PiperVoice.Speak` returns success (nil) — the distinguished StoppedSpeaking
condition is declared and handled by the UI but never produced — and the
UI speak-outcome handler consequently emits StatusChanged{"Ready"}; in
particular a cancellation never yields "Failed to speak". -/
theorem Speak_cancel_amended (pv : PiperVoice) (env : SpeakEnv) (text : String)
    (hm : env.modelFileExists = true)
    (hp : env.pipeError = none) (ha : env.audioCtxError = none)
    (hd : env.deviceInitError = none) (hs : env.piperStartError = none)
    (hc : env.cancelledBeforePlaybackDone = true) :
    pv.Speak env = none
    ∧ SpeakCmdMsg pv env text = TeaMsg.statusChanged "Ready"
    ∧ SpeakCmdMsg pv env text ≠ TeaMsg.statusChanged "Failed to speak" := by
  have h1 : pv.Speak env = none := by
    simp [PiperVoice.Speak, hm, hp, ha, hd, hs, hc]
  refine ⟨h1, ?_, ?_⟩
  · simp [SpeakCmdMsg, h1]
  · simp [SpeakCmdMsg, h1]

/-- Witness for C2 (amended) at the concrete cancelled environment. -/
theorem Speak_cancel_amended_witness :
    NewPiperVoice.Speak cancelledSpeakEnv = none
    ∧ SpeakCmdMsg NewPiperVoice cancelledSpeakEnv "Guten Tag"
        = TeaMsg.statusChanged "Ready"
    ∧ SpeakCmdMsg NewPiperVoice cancelledSpeakEnv "Guten Tag"
        ≠ TeaMsg.statusChanged "Failed to speak" :=
  Speak_cancel_amended NewPiperVoice cancelledSpeakEnv "Guten Tag"
    rfl rfl rfl rfl rfl rfl

/-! ## Terminal UI state machine (src/main.go, later revision, `model.Update`) -/

/-- Go `strings.TrimSpace` (the transcript contains ASCII whitespace only). -/
def goTrimSpace (s : String) : String :=
  String.mk (((s.data.dropWhile Char.isWhitespace).reverse.dropWhile
    Char.isWhitespace).reverse)

def splitOnCharAux (c : Char) : List Char → List Char → List String
  | [], acc => [String.mk acc.reverse]
  | x :: xs, acc =>
    if x = c then String.mk acc.reverse :: splitOnCharAux c xs []
    else splitOnCharAux c xs (x :: acc)

/-- Go `strings.Split(s, sep)` for a single-character separator (the source
only ever splits on "\n" and " "): keeps empty fields and always returns at
least one element. -/
def goSplitChar (s : String) (c : Char) : List String :=
  splitOnCharAux c s.data []

/-- Go slice indexing `rows[i]` with an `int` index; `none` models the Go
runtime panic for an out-of-range index. -/
def goIndex (l : List String) (i : Int) : Option String :=
  if i < 0 then none else l.get? i.toNat

/-- The slice of the bubbletea model the claims concern.  The viewport is
omitted (pure rendering state); the recorder fields the key handler reads
(`IsRecording()`, `Stopped`) are carried inline; times are in nanoseconds. -/
structure UIModel where
  content : String
  status : String
  focusRow : Int
  focusWord : Int
  cancelSpeakSet : Bool
  recorderRecording : Bool
  recorderStopped : Int
deriving Repr, DecidableEq

inductive Cmd where
  | viewportCont
  | emptyCmd
  | transcribeCmd
  | startRecordingCmd
  | quit
deriving Repr, DecidableEq

inductive KeyMsg where
  | esc
  | j
  | k
  | w
  | b
  | ctrlB
  | q
  | ctrlC
deriving Repr, DecidableEq

inductive UIMsg where
  | statusChangedMsg (status : String)
  | key (keyMsg : KeyMsg)
deriving Repr, DecidableEq

/-- `model.Update` for the messages the claims concern (`StatusChanged` and
the esc/j/k/w/b/ctrl+b/quit key branches), as a function of the wall clock
`now` read by `time.Since`.  Result `none` models a Go runtime panic
(out-of-range slice index).  `m.cancelSpeak()` (esc, ctrl+b) acts on an
entity outside this state slice; `m.recorder.Stop()` clears the recording
flag and stamps `Stopped` with the current time before Update returns. -/
def Update (m : UIModel) (now : Int) : UIMsg → Option (UIModel × Cmd)
  | UIMsg.statusChangedMsg s => some ({ m with status := s }, Cmd.viewportCont)
  | UIMsg.key KeyMsg.esc => some ({ m with status := "Ready" }, Cmd.viewportCont)
  | UIMsg.key KeyMsg.j =>
    let m1 := { m with focusRow := m.focusRow + 1 }
    let rows := goSplitChar (goTrimSpace m1.content) '\n'
    if rows.length = 0 then some (m1, Cmd.viewportCont)
    else match goIndex rows m1.focusRow with
    | none => none
    | some focusedRow =>
      some ({ m1 with focusWord := (min
        (max (((goSplitChar (goTrimSpace focusedRow) ' ').length : Int) - 1) 0)
        m1.focusWord) }, Cmd.viewportCont)
  | UIMsg.key KeyMsg.k =>
    if m.focusRow - 1 < 0 then some (m, Cmd.viewportCont)
    else
      let m1 := { m with focusRow := m.focusRow - 1 }
      let rows := goSplitChar (goTrimSpace m1.content) '\n'
      if rows.length = 0 then some (m1, Cmd.viewportCont)
      else match goIndex rows m1.focusRow with
      | none => none
      | some focusedRow =>
        some ({ m1 with focusWord := (min
          (max (((goSplitChar (goTrimSpace focusedRow) ' ').length : Int) - 1) 0)
          m1.focusWord) }, Cmd.viewportCont)
  | UIMsg.key KeyMsg.w =>
    let rows := goSplitChar (goTrimSpace m.content) '\n'
    if rows.length = 0 then some (m, Cmd.viewportCont)
    else match goIndex rows m.focusRow with
    | none => none
    | some focusedRow =>
      if m.focusWord + 1 ≥ ((goSplitChar focusedRow ' ').length : Int)
          ∧ m.focusRow + 1 ≥ (rows.length : Int) then
        some (m, Cmd.viewportCont)
      else
        let m1 :=
          if m.focusWord + 1 ≥ ((goSplitChar (goTrimSpace focusedRow) ' ').length : Int)
          then { m with focusRow := m.focusRow + 1, focusWord := -1 }
          else m
        some ({ m1 with focusWord := m1.focusWord + 1 }, Cmd.viewportCont)
  | UIMsg.key KeyMsg.b =>
    if m.focusWord - 1 < 0 ∧ m.focusRow - 1 < 0 then some (m, Cmd.viewportCont)
    else if m.focusWord - 1 < 0 then
      let m1 := { m with focusRow := max 0 (m.focusRow - 1) }
      let rows := goSplitChar (goTrimSpace m1.content) '\n'
      match goIndex rows m1.focusRow with
      | none => none
      | some row =>
        let focusedRow := goSplitChar (goTrimSpace row) ' '
        let m2 := { m1 with focusWord := (focusedRow.length : Int) }
        some ({ m2 with focusWord := m2.focusWord - 1 }, Cmd.viewportCont)
    else
      some ({ m with focusWord := m.focusWord - 1 }, Cmd.viewportCont)
  | UIMsg.key KeyMsg.ctrlB =>
    if now - m.recorderStopped < 1000000000 then some (m, Cmd.emptyCmd)
    else if m.recorderRecording then
      some ({ m with recorderRecording := false, recorderStopped := now, status := "Ready" },
        Cmd.transcribeCmd)
    else some ({ m with status := "Recording" }, Cmd.startRecordingCmd)
  | UIMsg.key KeyMsg.q => some (m, Cmd.quit)
  | UIMsg.key KeyMsg.ctrlC => some (m, Cmd.quit)

/-- A model mid-recording, status "Recording". -/
def recordingModel : UIModel :=
  { content := ""
  , status := "Recording"
  , focusRow := 0
  , focusWord := 0
  , cancelSpeakSet := false
  , recorderRecording := true
  , recorderStopped := 0 }

/-- C1 counterexample: while the recorder is actively recording (flag set,
status "Recording"), delivering the generic StatusChanged{"Ready"} message
changes the displayed status to "Ready" — the Update step has no
suppression, contradicting the claimed invariant. -/
theorem statusChanged_suppression_counterexample :
    Update recordingModel 0 (UIMsg.statusChangedMsg "Ready")
      = some ({ recordingModel with status := "Ready" }, Cmd.viewportCont)
    ∧ recordingModel.recorderRecording = true
    ∧ ("Ready" : String) ≠ "Recording" :=
  ⟨rfl, rfl, by decide⟩

/-- C1 amended: the Update step applies every StatusChanged message
unconditionally — the displayed status becomes the message's status, also
while the recorder is recording or the TTS engine is speaking — and nothing
else in the model changes. -/
theorem statusChanged_overwrites (m : UIModel) (now : Int) (s : String) :
    Update m now (UIMsg.statusChangedMsg s)
      = some ({ m with status := s }, Cmd.viewportCont) := rfl

/-- A one-row transcript with the focus on row 0 (which is the last row). -/
def oneRowModel : UIModel :=
  { content := "hello"
  , status := "Ready"
  , focusRow := 0
  , focusWord := 0
  , cancelSpeakSet := false
  , recorderRecording := false
  , recorderStopped := 0 }

/-- C5: pressing "j" with the focus on the last row first increments
`focusRow` (to 1) and then evaluates `rows[1]` on the one-element row slice —
an out-of-range index, i.e. a Go runtime panic (`none`), not the claimed
boundary no-op. -/
theorem j_at_last_row_out_of_range :
    Update oneRowModel 0 (UIMsg.key KeyMsg.j) = none := rfl

/-- C8: a record-toggle (Ctrl+B) delivered strictly less than one second
after the recorder last stopped leaves the model unchanged and schedules
only the empty command; consequently the Update step never starts a
recording within the one-second debounce window. -/
theorem ctrlB_debounce (m : UIModel) (now : Int) :
    (now - m.recorderStopped < 1000000000 →
      Update m now (UIMsg.key KeyMsg.ctrlB) = some (m, Cmd.emptyCmd))
    ∧ (∀ p, Update m now (UIMsg.key KeyMsg.ctrlB) = some p →
        p.2 = Cmd.startRecordingCmd → 1000000000 ≤ now - m.recorderStopped) := by
  constructor
  · intro h
    simp [Update, h]
  · intro p hp hcmd
    by_contra hlt
    push_neg at hlt
    simp [Update, hlt] at hp
    rw [← hp] at hcmd
    simp at hcmd

/-- An idle model whose recorder stopped at time 0. -/
def idleModel : UIModel :=
  { content := ""
  , status := "Ready"
  , focusRow := 0
  , focusWord := 0
  , cancelSpeakSet := false
  , recorderRecording := false
  , recorderStopped := 0 }

/-- Witness for C8: a toggle 5 nanoseconds after the last stop is ignored. -/
theorem ctrlB_debounce_witness :
    Update idleModel 5 (UIMsg.key KeyMsg.ctrlB) = some (idleModel, Cmd.emptyCmd) :=
  (ctrlB_debounce idleModel 5).1 (by decide)
